import Mathlib

/-!
Shallow embedding of the ingestion-and-catalog pipeline of the
`image_sender_to_web_service_using_telegram` repository.

The catalog is the Redis list `media_history`: a list of serialized
records.  `lpush` prepends, `lrange 0 -1` reads the whole list, `llen`
counts raw items.  An item is either a string that `JSON.parse`s to a
media record or one that does not (a corrupt entry); the JSON grammar
itself is not re-implemented — every claim only depends on whether an
item parses and on the parsed fields.

External effects (Telegram fetches, blob put/delete, Redis commands)
are modelled by explicit outcome parameters: a fallible call is an
`Except` value describing how that call resolved in the run under
consideration.
-/

/-- One catalog entry, as built by the webhook handlers
(`src/api/webhook.js` lines 114-121, `src/unnamed/part_001`). -/
structure MediaEntry where
  url : String
  filename : String
  type : String
  timestamp : Nat
  size : String
  uploadedBy : String
deriving Repr, DecidableEq

/-- One raw item of the Redis list `media_history`: either a string that
parses to a record, or a corrupt string (`JSON.parse` throws). -/
inductive RedisItem where
  | record (e : MediaEntry) : RedisItem
  | corrupt (s : String) : RedisItem
deriving Repr, DecidableEq

/-- `typeof item === 'string' ? JSON.parse(item) : item` inside a
try/catch: a record parses to itself, a corrupt item throws (`none`). -/
def parseItem : RedisItem → Option MediaEntry
  | .record e => some e
  | .corrupt _ => none

/-- Redis `LPUSH key a b c` pushes the arguments one by one, each to the
head of the list. -/
def lpushMany (items : List RedisItem) (l : List RedisItem) : List RedisItem :=
  items.foldl (fun acc x => x :: acc) l

/-- The read side of `src/api/history.js` (lines 25-34): parse every raw
item, dropping the ones that fail to parse. -/
def listHistory (catalog : List RedisItem) : List MediaEntry :=
  catalog.filterMap parseItem

/-! ### Size formatting (`formatFileSize` in src/api/webhook.js lines 7-13)

JavaScript numbers are IEEE doubles; the byte counts involved are exact
in that range, and `x.toFixed(d)` is modelled as rounding the exact
rational `x` half-up at `d` decimals.  Only the branch structure and the
unit suffix of the output matter to the claims. -/

/-- Left-pad a numeral with zeros to `d` digits (decimal places of
`toFixed`). -/
def padZeros (s : String) (d : Nat) : String :=
  String.mk (List.replicate (d - s.length) '0') ++ s

/-- `x.toFixed(d)` for a non-negative rational `x`. -/
def toFixedQ (q : ℚ) (d : Nat) : String :=
  let n := (round (q * (10 : ℚ) ^ d)).toNat
  if d = 0 then toString n
  else toString (n / 10 ^ d) ++ "." ++ padZeros (toString (n % 10 ^ d)) d

/-- `formatFileSize(bytes)` from src/api/webhook.js lines 7-13.  The JS
guard `!bytes || bytes === 0` collapses to `bytes = 0` on naturals. -/
def formatFileSize (bytes : Nat) : String :=
  if bytes = 0 then "0 KB"
  else if bytes > 1024 * 1024 * 1024 then
    toFixedQ ((bytes : ℚ) / (1024 * 1024 * 1024)) 2 ++ " GB"
  else if bytes > 1024 * 1024 then
    toFixedQ ((bytes : ℚ) / (1024 * 1024)) 1 ++ " MB"
  else if bytes > 1024 then
    toFixedQ ((bytes : ℚ) / 1024) 0 ++ " KB"
  else toString bytes ++ " B"

/-! ### The stats size regex (`src/api/history.js` lines 86-94)

`parsed.size.match(/([\d.]+)\s*(KB|MB|GB)/i)`: leftmost match of one or
more digit-or-dot characters, optional whitespace, then one of the three
unit tokens, case-insensitively.  Because a unit character is never a
digit, a dot or whitespace, greedy maximal-munch matching coincides with
the backtracking regex semantics, so the matcher below scans start
positions left to right and munches maximally at each. -/

def isDigitOrDot (c : Char) : Bool := c.isDigit || c == '.'

/-- Try to read `(KB|MB|GB)` (case-insensitive) at the head of the
character list; returns the unit already uppercased, as the stats code
applies `.toUpperCase()` to the captured group. -/
def unitAt : List Char → Option String
  | c1 :: c2 :: _ =>
    if c2.toUpper == 'B' then
      if c1.toUpper == 'K' then some "KB"
      else if c1.toUpper == 'M' then some "MB"
      else if c1.toUpper == 'G' then some "GB"
      else none
    else none
  | _ => none

/-- Scan for the leftmost match of `([\d.]+)\s*(KB|MB|GB)`; returns the
numeric group and the uppercased unit. -/
def sizeMatchAux : List Char → Option (String × String)
  | [] => none
  | c :: rest =>
    if isDigitOrDot c then
      let run := (c :: rest).takeWhile isDigitOrDot
      let rem := (c :: rest).dropWhile isDigitOrDot
      let afterSp := rem.dropWhile (·.isWhitespace)
      match unitAt afterSp with
      | some u => some (String.mk run, u)
      | none => sizeMatchAux rest
    else sizeMatchAux rest

/-- `size.match(/([\d.]+)\s*(KB|MB|GB)/i)` on a stored size string. -/
def sizeMatch (s : String) : Option (String × String) :=
  sizeMatchAux s.data

/-- Read a maximal run of decimal digits: accumulated value, number of
digits consumed, remaining characters. -/
def digitsValAux (acc n : Nat) : List Char → Nat × Nat × List Char
  | [] => (acc, n, [])
  | c :: rest =>
    if c.isDigit then digitsValAux (10 * acc + (c.toNat - 48)) (n + 1) rest
    else (acc, n, c :: rest)

/-- `parseFloat` on a `[\d.]+` capture: digits, an optional dot, more
digits; anything after a second dot is ignored; `none` is `NaN` (no
digit at all, e.g. `"."`). -/
def parseFloatQ (s : String) : Option ℚ :=
  let p1 := digitsValAux 0 0 s.data
  match p1.2.2 with
  | '.' :: r2 =>
    let p2 := digitsValAux 0 0 r2
    if p1.2.1 = 0 && p2.2.1 = 0 then none
    else some ((p1.1 : ℚ) + (p2.1 : ℚ) / (10 : ℚ) ^ p2.2.1)
  | _ => if p1.2.1 = 0 then none else some (p1.1 : ℚ)

/-- What one stored size string contributes to the stats total:
`skip` — the regex found no `KB|MB|GB` match, the record is passed over;
`nan` — the regex matched but `parseFloat` gave `NaN`;
`val q` — a megabyte amount added to the running total
(`KB` divides by 1024, `MB` is taken as is, `GB` multiplies by 1024,
src/api/history.js lines 91-93). -/
inductive SizeContrib where
  | skip : SizeContrib
  | nan : SizeContrib
  | val (q : ℚ) : SizeContrib
deriving Repr, DecidableEq

/-- Size contribution of one record's `size` field, in MB. -/
def sizeContribMB (size : String) : SizeContrib :=
  match sizeMatch size with
  | none => .skip
  | some (numStr, unit) =>
    match parseFloatQ numStr with
    | none => .nan
    | some v =>
      if unit = "KB" then .val (v / 1024)
      else if unit = "MB" then .val v
      else if unit = "GB" then .val (v * 1024)
      else .skip

/-- `totalSize += value`, with `none` standing for `NaN` (absorbing, as
IEEE addition with `NaN` is). -/
def addContrib (acc : Option ℚ) : SizeContrib → Option ℚ
  | .skip => acc
  | .nan => none
  | .val q => acc.map (· + q)

/-- Accumulator of the stats `forEach` (src/api/history.js lines 76-99). -/
structure StatsAcc where
  images : Nat
  videos : Nat
  totalSizeMB : Option ℚ
deriving Repr, DecidableEq

/-- One iteration of the stats `forEach`: a corrupt item is logged and
skipped; a parsed record bumps the matching type counter and its size
contribution. -/
def statsStep (acc : StatsAcc) (item : RedisItem) : StatsAcc :=
  match parseItem item with
  | none => acc
  | some e =>
    { images := if e.type = "image" then acc.images + 1 else acc.images
      videos := if e.type = "video" then acc.videos + 1 else acc.videos
      totalSizeMB := addContrib acc.totalSizeMB (sizeContribMB e.size) }

/-- Result of the stats handler (`src/api/history.js` lines 65-116).
`totalFiles` is `LLEN`, the raw item count; the per-type counters and
the size total come from the parsed records.  The final display
formatting of `totalSizeMB` is kept separate in `statsFormattedSize`. -/
structure StatsResult where
  totalFiles : Nat
  images : Nat
  videos : Nat
  totalSizeMB : Option ℚ
deriving Repr, DecidableEq

/-- The stats handler over the catalog.  When the list is empty the JS
skips the detail pass, which coincides with folding over no items. -/
def statsHandler (catalog : List RedisItem) : StatsResult :=
  let acc := catalog.foldl statsStep ⟨0, 0, some 0⟩
  { totalFiles := catalog.length
    images := acc.images
    videos := acc.videos
    totalSizeMB := acc.totalSizeMB }

/-- `totalSize > 1024 ? GB : MB` display formatting of the stats total
(`NaN > 1024` is false, so a `NaN` total renders through the MB arm). -/
def statsFormattedSize : Option ℚ → String
  | none => "NaN MB"
  | some q => if q > 1024 then toFixedQ (q / 1024) 2 ++ " GB"
              else toFixedQ q 2 ++ " MB"

/-! ### Retrying fetcher (`downloadFileContent`)

Two variants exist in the repository: src/api/webhook.js lines 34-47
waits `1000 * attempt` ms between failed attempts and rethrows the last
error itself; src/unnamed/part_001 lines 209-242 waits
`min(1000 * 2^attempt, 5000)` ms and throws a fresh error whose message
embeds the last error's message.  Both are driven by a per-attempt
outcome function: `outcome i` is how the `fetch` of attempt `i`
resolved (`ok` response, or the error thrown — a network error or the
synthesized non-success-status error). -/

/-- Trace of one `downloadFileContent` run: the overall result (the
error side carries the thrown message, `none` standing for the JS
`undefined` rethrow when the loop never ran), the number of fetch
attempts made, and the successive delays (ms) slept between attempts. -/
structure DownloadTrace where
  result : Except (Option String) String
  attemptsMade : Nat
  delays : List Nat
deriving Repr

/-- The retry loop of src/api/webhook.js lines 36-45, by remaining
fuel: `remaining` is `maxRetries - attempt + 1`.  A failed attempt with
attempts still left (`attempt < maxRetries`, i.e. remaining fuel after
this one) sleeps `1000 * attempt` ms. -/
def downloadGo (outcome : Nat → Except String String) (attempt : Nat) :
    Nat → Option String → DownloadTrace
  | 0, lastError => ⟨.error lastError, 0, []⟩
  | remaining + 1, _ =>
    match outcome attempt with
    | .ok r => ⟨.ok r, 1, []⟩
    | .error e =>
      let rest := downloadGo outcome (attempt + 1) remaining (some e)
      if remaining = 0 then ⟨rest.result, 1 + rest.attemptsMade, rest.delays⟩
      else ⟨rest.result, 1 + rest.attemptsMade, 1000 * attempt :: rest.delays⟩

/-- `downloadFileContent(fileUrl, maxRetries = 3)` from
src/api/webhook.js lines 34-47: linear backoff, rethrows `lastError`. -/
def downloadFileContent (outcome : Nat → Except String String)
    (maxRetries : Nat := 3) : DownloadTrace :=
  downloadGo outcome 1 maxRetries none

/-- The retry loop of src/unnamed/part_001 lines 212-239: exponential
backoff capped at 5000 ms, and the terminal throw wraps the last
error's message. -/
def downloadGoExp (outcome : Nat → Except String String) (maxRetries attempt : Nat) :
    Nat → Option String → DownloadTrace
  | 0, lastError =>
    ⟨.error (some ("Failed to download after " ++ toString maxRetries ++
      " attempts: " ++ (lastError.getD "undefined"))), 0, []⟩
  | remaining + 1, _ =>
    match outcome attempt with
    | .ok r => ⟨.ok r, 1, []⟩
    | .error e =>
      let rest := downloadGoExp outcome maxRetries (attempt + 1) remaining (some e)
      if remaining = 0 then ⟨rest.result, 1 + rest.attemptsMade, rest.delays⟩
      else ⟨rest.result, 1 + rest.attemptsMade,
        min (1000 * 2 ^ attempt) 5000 :: rest.delays⟩

/-- `downloadFileContent(fileUrl, maxRetries = 3)` from
src/unnamed/part_001 lines 209-242. -/
def downloadFileContentExp (outcome : Nat → Except String String)
    (maxRetries : Nat := 3) : DownloadTrace :=
  downloadGoExp outcome maxRetries 1 maxRetries none

/-! ### The webhook ingestion handler (`src/api/webhook.js` lines 49-158) -/

/-- One resolution variant of a Telegram photo payload. -/
structure PhotoSize where
  file_id : String
  file_size : Nat
deriving Repr, DecidableEq

/-- The video payload of a Telegram message. -/
structure Video where
  file_id : String
deriving Repr, DecidableEq

/-- The slice of an inbound Telegram message the handler reads. -/
structure TgMessage where
  photo : Option (List PhotoSize)
  video : Option Video
  chatId : Option Int
  username : Option String
  firstName : Option String
  messageId : Nat
deriving Repr, DecidableEq

/-- The slice of the HTTP request the handler reads. -/
structure WebhookRequest where
  method : String
  message : Option TgMessage
deriving Repr, DecidableEq

/-- `getFile` result: remote path and declared size. -/
structure FileData where
  file_path : String
  file_size : Nat
deriving Repr, DecidableEq

/-- How the external calls of one webhook run resolved.
`getFile` is the single `getTelegramFile` call (its throw carries the
message built from the HTTP status or the API error description);
`download` gives the per-attempt fetch outcomes consumed by
`downloadFileContent`; `put` is the blob write (ok carries the public
URL); `append` is the `redis.lpush`; `statusMsgId` is the message id
the best-effort initial status send yielded, if any; `nowName` and
`nowEntry` are the two `Date.now()` reads at lines 107 and 118. -/
structure WebhookEnv where
  statusMsgId : Option Nat
  getFile : Except String FileData
  download : Nat → Except String String
  put : Except String String
  append : Except String Unit
  nowName : Nat
  nowEntry : Nat

/-- Line 75: `isPhoto ? message.photo[message.photo.length - 1].file_id
: message.video.file_id`.  A present-but-empty photo array indexes
`undefined` and throws (`none` here); this happens outside the `try`. -/
def selectFileId (m : TgMessage) : Option String :=
  match m.photo with
  | some ps => ps.getLast?.map PhotoSize.file_id
  | none => m.video.map Video.file_id

/-- JS `a || b` over possibly-absent strings: the empty string is falsy. -/
def jsStringOr (a : Option String) (b : String) : String :=
  match a with
  | some s => if s = "" then b else s
  | none => b

/-- `file_path.split('/').pop()`. -/
def lastPathComponent (p : String) : String :=
  (p.splitOn "/").getLastD ""

/-- The webhook handler's observable outcome: HTTP status, the `success`
field of the JSON body when one is sent (`none` for the plain `'OK'`
acknowledgement, the 405 body and the crash), the catalog after the
run, and how many `getTelegramFile` calls were made. -/
structure WebhookResult where
  status : Nat
  success : Option Bool
  catalog : List RedisItem
  metadataCalls : Nat
deriving Repr, DecidableEq

/-- The default-export handler of src/api/webhook.js lines 49-158.
Every failure thrown inside the `try` (metadata, download retries
exhausted, blob put, redis lpush) lands in the `catch`, which answers
status 200 with `success:false`; only the unreachable-in-practice
empty-photo-array indexing (line 75, outside the `try`) escapes as an
unhandled exception, surfaced by the platform as a 500. -/
def webhookHandler (req : WebhookRequest) (env : WebhookEnv)
    (catalog : List RedisItem) : WebhookResult :=
  if req.method ≠ "POST" then ⟨405, none, catalog, 0⟩
  else
    match req.message with
    | none => ⟨200, none, catalog, 0⟩
    | some m =>
      if m.photo.isNone ∧ m.video.isNone then ⟨200, none, catalog, 0⟩
      else
        match selectFileId m with
        | none => ⟨500, none, catalog, 0⟩
        | some _fileId =>
          match env.getFile with
          | .error _ => ⟨200, some false, catalog, 1⟩
          | .ok fileData =>
            match (downloadFileContent env.download 3).result with
            | .error _ => ⟨200, some false, catalog, 1⟩
            | .ok _body =>
              match env.put with
              | .error _ => ⟨200, some false, catalog, 1⟩
              | .ok blobUrl =>
                let uniqueName :=
                  toString env.nowName ++ "-" ++ lastPathComponent fileData.file_path
                let mediaEntry : MediaEntry :=
                  { url := blobUrl
                    filename := uniqueName
                    type := if m.photo.isSome then "image" else "video"
                    timestamp := env.nowEntry
                    size := formatFileSize fileData.file_size
                    uploadedBy := jsStringOr m.username (jsStringOr m.firstName "Unknown") }
                match env.append with
                | .error _ => ⟨200, some false, catalog, 1⟩
                | .ok _ => ⟨200, some true, RedisItem.record mediaEntry :: catalog, 1⟩

/-! ### The `src/unnamed/part_002` webhook variant (lines 6-44)

This earlier iteration has no retry loop, no response-ok checks on the
two fetches, and — unlike src/api/webhook.js, src/unnamed/part_001 and
src/unnamed/part_003, whose catch blocks answer 200 (part_001 line 409:
"Always return 200 so Telegram doesn't retry") — its catch block
answers status 500. -/

/-- External-call outcomes of one part_002 run.  `getFile` errors when
the metadata fetch or its `.json()` throws; `ok none` is a JSON body
without a usable `result` (destructuring leaves it `undefined` and
`result.file_path` throws inside the try); `download` is the single
unchecked content fetch; `put` is the blob write. -/
structure Part002Env where
  getFile : Except String (Option FileData)
  download : Except String String
  put : Except String String
  append : Except String Unit
  now : Nat

/-- Line 12 of part_002: `message.photo ?
message.photo[...length - 1].file_id : message.video?.file_id`.  The
optional chaining makes a missing video `undefined` rather than a
throw. -/
def part002FileId (m : TgMessage) : Option String :=
  match m.photo with
  | some ps => ps.getLast?.map PhotoSize.file_id
  | none => m.video.map Video.file_id

/-- Response of one part_002 run: HTTP status, `success` field when the
body carries one, and the catalog afterwards. -/
structure Part002Result where
  status : Nat
  success : Option Bool
  catalog : List RedisItem
deriving Repr, DecidableEq

/-- The default-export handler of src/unnamed/part_002.  Any throw
inside its try block reaches `catch (error) { return
res.status(500).json(...) }` (lines 41-43): a hard 500, not a 200
acknowledgement.  A present-but-empty photo array throws at line 12,
outside the try (platform 500). -/
def part002Handler (req : WebhookRequest) (env : Part002Env)
    (catalog : List RedisItem) : Part002Result :=
  if req.method ≠ "POST" then ⟨405, none, catalog⟩
  else
    match req.message with
    | none => ⟨200, none, catalog⟩
    | some m =>
      if m.photo.isSome ∧ m.photo.getD [] = [] then ⟨500, none, catalog⟩
      else
        match part002FileId m with
        | none => ⟨200, none, catalog⟩
        | some _fileId =>
          match env.getFile with
          | .error _ => ⟨500, none, catalog⟩
          | .ok none => ⟨500, none, catalog⟩
          | .ok (some fileData) =>
            match env.download with
            | .error _ => ⟨500, none, catalog⟩
            | .ok _body =>
              match env.put with
              | .error _ => ⟨500, none, catalog⟩
              | .ok blobUrl =>
                -- part_002's entry has no uploadedBy field and adds a
                -- display date; it is projected onto the shared record
                -- shape here (absent uploader read back as 'Unknown'),
                -- which no claim inspects.
                let mediaEntry : MediaEntry :=
                  { url := blobUrl
                    filename := lastPathComponent fileData.file_path
                    type := if m.photo.isSome then "image" else "video"
                    timestamp := env.now
                    size := if fileData.file_size > 1024 * 1024 then
                        toFixedQ ((fileData.file_size : ℚ) / (1024 * 1024)) 1 ++ " MB"
                      else toFixedQ ((fileData.file_size : ℚ) / 1024) 0 ++ " KB"
                    uploadedBy := "Unknown" }
                match env.append with
                | .error _ => ⟨500, none, catalog⟩
                | .ok _ => ⟨200, some true, RedisItem.record mediaEntry :: catalog⟩

/-! ### The deletion handler (`src/api/delete.js` lines 6-82)

The blob deletion (step 1) is attempted first and its failure is
swallowed, so it does not appear in the state; Redis-level I/O failure
(the outer catch, a 500) is outside this state model — the claims about
deletion quantify over catalog contents with the store operating
normally. -/

/-- The slice of the HTTP request the delete handler reads. -/
structure DeleteRequest where
  method : String
  url : Option String
  filename : Option String
  auth : Option String
deriving Repr, DecidableEq

/-- Configured shared secret. -/
structure DeleteEnv where
  adminPassword : String
deriving Repr, DecidableEq

/-- The response body fields the delete handler can produce. -/
structure DeleteResponse where
  status : Nat
  success : Option Bool
  removed : Option Nat
  remaining : Option Nat
  message : Option String
  error : Option String
deriving Repr, DecidableEq

/-- The filter predicate of delete.js lines 46-54: keep an item when it
parses and its `url` differs from the target; a corrupt item is removed
(`return false` in the parse catch). -/
def keepItem (url : String) : RedisItem → Bool
  | .record e => e.url != url
  | .corrupt _ => false

/-- The default-export handler of src/api/delete.js.  Note the order of
the two validations: the `if (!url)` 400 (lines 16-18) precedes the
authorization 401 (lines 21-24); `!url` is JS falsiness, so it rejects
both an absent `url` field and an empty-string one.  The rewrite
(lines 60-66) clears the key and lpushes the reversed filtered list,
which reproduces the filtered list in order. -/
def deleteHandler (req : DeleteRequest) (env : DeleteEnv)
    (catalog : List RedisItem) : DeleteResponse × List RedisItem :=
  if req.method ≠ "POST" then
    (⟨405, none, none, none, none, some "Method Not Allowed"⟩, catalog)
  else
    match req.url with
    | none => (⟨400, none, none, none, none, some "Missing required field: url"⟩, catalog)
    | some url =>
      if url = "" then
        (⟨400, none, none, none, none, some "Missing required field: url"⟩, catalog)
      else if req.auth ≠ some ("Bearer " ++ env.adminPassword) then
        (⟨401, none, none, none, none, some "Unauthorized"⟩, catalog)
      else
        let history := catalog
        if history.length = 0 then
          (⟨200, some true, none, none, some "Already deleted", none⟩, catalog)
        else
          let updatedHistory := history.filter (keepItem url)
          let removedCount := history.length - updatedHistory.length
          let newCatalog := lpushMany updatedHistory.reverse []
          (⟨200, some true, some removedCount, some updatedHistory.length, none, none⟩,
            newCatalog)

/-! ### Insertion order and ordering predicates -/

/-- A sequence of ingestion runs, each appending its record with
`redis.lpush` (head insertion), earliest first. -/
def insertAll (entries : List MediaEntry) (catalog : List RedisItem) : List RedisItem :=
  entries.foldl (fun c e => RedisItem.record e :: c) catalog

/-- Adjacent-pairs check: timestamps never increase along the list. -/
def timestampsDescB : List MediaEntry → Bool
  | [] => true
  | [_] => true
  | a :: b :: rest => decide (b.timestamp ≤ a.timestamp) && timestampsDescB (b :: rest)

/-- Adjacent-pairs check: timestamps never decrease along the list. -/
def timestampsAscB : List MediaEntry → Bool
  | [] => true
  | [_] => true
  | a :: b :: rest => decide (a.timestamp ≤ b.timestamp) && timestampsAscB (b :: rest)

/-- Adjacent-pairs check: photo variants listed in never-decreasing
declared size, the order Telegram delivers them in. -/
def sizesAscB : List PhotoSize → Bool
  | [] => true
  | [_] => true
  | a :: b :: rest => decide (a.file_size ≤ b.file_size) && sizesAscB (b :: rest)

/-- Modelled from the spec: "Select the highest-resolution variant when
multiple are offered (e.g., largest photo size)" — the variant of
maximal `file_size` (first such on ties), for comparison with the
code's last-element selection. -/
def specSelectLargest : List PhotoSize → Option PhotoSize
  | [] => none
  | p :: ps => some (ps.foldl (fun best q =>
      if best.file_size < q.file_size then q else best) p)

/-- A photo-only message carrying the given variant list. -/
def photoMessage (ps : List PhotoSize) : TgMessage :=
  ⟨some ps, none, some 7, some "alice", none, 41⟩

/-- Holds when a run's external outcomes fail the pipeline before the
catalog append: metadata resolution throws, the byte download exhausts
its three attempts, or the blob put throws. -/
def failsBeforeAppend (env : WebhookEnv) : Prop :=
  (∃ e, env.getFile = Except.error e) ∨
  (∃ e, (downloadFileContent env.download 3).result = Except.error e) ∨
  (∃ e, env.put = Except.error e)

/-- A raw catalog item that is a well-formed record whose `type` is
`image` or `video`. -/
def wellTyped (item : RedisItem) : Prop :=
  ∃ e, item = RedisItem.record e ∧ (e.type = "image" ∨ e.type = "video")

/-- A raw catalog item that parses (is a record at all). -/
def isRecordB : RedisItem → Bool
  | .record _ => true
  | .corrupt _ => false

/-- A record item carrying exactly the given url (the delete target
test `parsed.url !== url`, negated; corrupt items never match a url). -/
def matchesUrlB (url : String) : RedisItem → Bool
  | .record e => e.url == url
  | .corrupt _ => false

/-! ### Concrete inputs for the closed evaluations -/

def entryA : MediaEntry :=
  ⟨"https://blob.example/a", "100-a.jpg", "image", 100, "3 KB", "alice"⟩

def entryB : MediaEntry :=
  ⟨"https://blob.example/b", "200-b.jpg", "video", 200, "5 KB", "bob"⟩

/-- A record whose stored size is in plain bytes, exactly as
`formatFileSize` emits for any count of at most 1024 bytes. -/
def entryBytes : MediaEntry :=
  ⟨"https://blob.example/c", "300-c.jpg", "image", 300, "512 B", "carol"⟩

def entryTs10 : MediaEntry :=
  ⟨"https://blob.example/t10", "t10.jpg", "image", 10, "3 KB", "alice"⟩

def entryTs5 : MediaEntry :=
  ⟨"https://blob.example/t5", "t5.jpg", "image", 5, "4 KB", "bob"⟩

def delEnv : DeleteEnv := ⟨"s3cret"⟩

/-- An authorized, well-formed delete request for the given url. -/
def delReq (u : String) : DeleteRequest :=
  ⟨"POST", some u, none, some "Bearer s3cret"⟩

/-- A POST ingestion event carrying a two-variant photo. -/
def photoReq : WebhookRequest :=
  ⟨"POST", some (photoMessage [⟨"a", 100⟩, ⟨"b", 500⟩])⟩

/-- Outcomes of a run whose metadata resolution fails. -/
def envMetaFail : WebhookEnv :=
  ⟨none, Except.error "Telegram API failed: 502",
    fun _ => Except.error "unreached", Except.error "unreached",
    Except.ok (), 1000, 1001⟩

/-- part_002 outcomes whose metadata fetch throws. -/
def env2MetaFail : Part002Env :=
  ⟨Except.error "fetch failed", Except.ok "bytes",
    Except.ok "https://blob.example/x", Except.ok (), 1000⟩

/-! ## Helper lemmas -/

theorem lpushMany_eq (items : List RedisItem) :
    ∀ l, lpushMany items l = items.reverse ++ l := by
  induction items with
  | nil => intro l; rfl
  | cons x xs ih =>
    intro l
    show lpushMany xs (x :: l) = (x :: xs).reverse ++ l
    rw [ih]
    simp

/-- On a catalog of parsable records, keeping the non-matching items and
counting the matching ones partition the length. -/
theorem countP_keep_add_match (url : String) (l : List RedisItem)
    (h : ∀ i ∈ l, isRecordB i = true) :
    l.countP (keepItem url) + l.countP (matchesUrlB url) = l.length := by
  induction l with
  | nil => simp
  | cons x xs ih =>
    have hx := h x (List.mem_cons_self x xs)
    have hxs := ih fun i hi => h i (List.mem_cons_of_mem x hi)
    cases x with
    | corrupt s => simp [isRecordB] at hx
    | record e =>
      rw [List.countP_cons, List.countP_cons]
      have hsplit :
          (keepItem url (RedisItem.record e) = true ∧
            matchesUrlB url (RedisItem.record e) = false) ∨
          (keepItem url (RedisItem.record e) = false ∧
            matchesUrlB url (RedisItem.record e) = true) := by
        by_cases he : e.url = url <;> simp [keepItem, matchesUrlB, he]
      rcases hsplit with ⟨h1, h2⟩ | ⟨h1, h2⟩ <;> simp [h1, h2] <;> omega

theorem insertAll_eq (entries : List MediaEntry) :
    ∀ cat, insertAll entries cat =
      (entries.map RedisItem.record).reverse ++ cat := by
  induction entries with
  | nil => intro cat; rfl
  | cons e es ih =>
    intro cat
    show insertAll es (RedisItem.record e :: cat) = _
    rw [ih]
    simp

theorem filterMap_parseItem_map_record (entries : List MediaEntry) :
    List.filterMap parseItem (entries.map RedisItem.record) = entries := by
  induction entries with
  | nil => rfl
  | cons e es ih => simp [parseItem, ih]

theorem listHistory_insertAll (entries : List MediaEntry) (cat : List RedisItem) :
    listHistory (insertAll entries cat) = entries.reverse ++ listHistory cat := by
  rw [insertAll_eq]
  simp only [listHistory, List.filterMap_append, ← List.map_reverse,
    filterMap_parseItem_map_record]

theorem timestampsDescB_iff : ∀ l : List MediaEntry,
    timestampsDescB l = true ↔
      l.Chain' (fun a b => b.timestamp ≤ a.timestamp)
  | [] => by simp [timestampsDescB]
  | [a] => by simp [timestampsDescB]
  | a :: b :: rest => by
    rw [List.chain'_cons]
    simp [timestampsDescB, timestampsDescB_iff (b :: rest), and_comm]

theorem timestampsAscB_iff : ∀ l : List MediaEntry,
    timestampsAscB l = true ↔
      l.Chain' (fun a b => a.timestamp ≤ b.timestamp)
  | [] => by simp [timestampsAscB]
  | [a] => by simp [timestampsAscB]
  | a :: b :: rest => by
    rw [List.chain'_cons]
    simp [timestampsAscB, timestampsAscB_iff (b :: rest), and_comm]

theorem timestampsDescB_reverse_of_asc (l : List MediaEntry)
    (h : timestampsAscB l = true) : timestampsDescB l.reverse = true := by
  rw [timestampsDescB_iff, List.chain'_reverse]
  rw [timestampsAscB_iff] at h
  exact h

theorem sizesAscB_chain' : ∀ ps : List PhotoSize,
    sizesAscB ps = true →
      ps.Chain' (fun a b => a.file_size ≤ b.file_size)
  | [] => by simp
  | [a] => by simp
  | a :: b :: rest => by
    intro h
    simp only [sizesAscB, Bool.and_eq_true, decide_eq_true_eq] at h
    exact List.chain'_cons.mpr ⟨h.1, sizesAscB_chain' (b :: rest) h.2⟩

theorem le_getLast_of_sizesAsc : ∀ ps : List PhotoSize,
    ps.Chain' (fun a b => a.file_size ≤ b.file_size) →
      ∀ p, ps.getLast? = some p → ∀ q ∈ ps, q.file_size ≤ p.file_size
  | [] => by simp
  | [a] => by
    intro _ p hp q hq
    simp at hp hq
    subst hp; subst hq
    exact le_refl _
  | a :: b :: rest => by
    intro hch p hp q hq
    rw [List.chain'_cons] at hch
    have hlast : (b :: rest).getLast? = some p := by
      simpa [List.getLast?_cons_cons] using hp
    rcases List.mem_cons.mp hq with rfl | hq
    · exact le_trans hch.1
        (le_getLast_of_sizesAsc (b :: rest) hch.2 p hlast b (List.mem_cons_self b rest))
    · exact le_getLast_of_sizesAsc (b :: rest) hch.2 p hlast q hq

/-- Evaluation of the linear-backoff fetcher at its only call shape
(`maxRetries = 3`), by cases on the three attempt outcomes. -/
theorem downloadFileContent_three (outcome : Nat → Except String String) :
    downloadFileContent outcome 3 =
      match outcome 1 with
      | .ok r => ⟨.ok r, 1, []⟩
      | .error _e1 =>
        match outcome 2 with
        | .ok r => ⟨.ok r, 2, [1000]⟩
        | .error _e2 =>
          match outcome 3 with
          | .ok r => ⟨.ok r, 3, [1000, 2000]⟩
          | .error e3 => ⟨.error (some e3), 3, [1000, 2000]⟩ := by
  cases h1 : outcome 1 <;> cases h2 : outcome 2 <;> cases h3 : outcome 3 <;>
    simp [downloadFileContent, downloadGo, h1, h2, h3]

/-- Evaluation of the capped-exponential fetcher at its only call shape
(`maxRetries = 3`). -/
theorem downloadFileContentExp_three (outcome : Nat → Except String String) :
    downloadFileContentExp outcome 3 =
      match outcome 1 with
      | .ok r => ⟨.ok r, 1, []⟩
      | .error _e1 =>
        match outcome 2 with
        | .ok r => ⟨.ok r, 2, [2000]⟩
        | .error _e2 =>
          match outcome 3 with
          | .ok r => ⟨.ok r, 3, [2000, 4000]⟩
          | .error e3 =>
            ⟨.error (some ("Failed to download after 3 attempts: " ++ e3)),
              3, [2000, 4000]⟩ := by
  cases h1 : outcome 1 <;> cases h2 : outcome 2 <;> cases h3 : outcome 3 <;>
    simp [downloadFileContentExp, downloadGoExp, h1, h2, h3]
  rfl

/-- The stats fold adds exactly one to the two type counters for every
well-typed record it passes over. -/
theorem stats_fold_counts (l : List RedisItem) :
    ∀ acc : StatsAcc, (∀ item ∈ l, wellTyped item) →
      (l.foldl statsStep acc).images + (l.foldl statsStep acc).videos =
        acc.images + acc.videos + l.length := by
  induction l with
  | nil => intro acc _; simp
  | cons x xs ih =>
    intro acc h
    obtain ⟨e, hx, hty⟩ := h x (List.mem_cons_self x xs)
    subst hx
    have hxs : ∀ item ∈ xs, wellTyped item :=
      fun i hi => h i (List.mem_cons_of_mem _ hi)
    rw [List.foldl_cons, ih _ hxs]
    have hstep : (statsStep acc (RedisItem.record e)).images +
        (statsStep acc (RedisItem.record e)).videos =
        acc.images + acc.videos + 1 := by
      rcases hty with h1 | h1 <;> simp [statsStep, parseItem, h1] <;> omega
    simp only [List.length_cons]
    omega

/-! ## Claim theorems -/

/-- Claim C10: every delete request whose body lacks the `url` field is
answered 400 regardless of the credential it carries — the url-presence
check of src/api/delete.js (lines 16-18) runs before the authorization
check (lines 21-24), so an unauthenticated request missing `url` gets
400, not 401. -/
theorem c10_missing_url_yields_400_before_auth
    (req : DeleteRequest) (env : DeleteEnv) (catalog : List RedisItem)
    (hm : req.method = "POST") (hu : req.url = none) :
    (deleteHandler req env catalog).1.status = 400 ∧
    (deleteHandler req env catalog).1.status ≠ 401 := by
  simp [deleteHandler, hm, hu]

/-- Witness for C10 at a concrete input: the request carries the correct
shared secret yet is still answered 400. -/
theorem c10_missing_url_witness :
    (deleteHandler ⟨"POST", none, none, some ("Bearer " ++ delEnv.adminPassword)⟩
      delEnv [RedisItem.record entryA]).1.status = 400 ∧
    (deleteHandler ⟨"POST", none, none, some ("Bearer " ++ delEnv.adminPassword)⟩
      delEnv [RedisItem.record entryA]).1.status ≠ 401 :=
  c10_missing_url_yields_400_before_auth _ delEnv _ rfl rfl

/-- Claim C2 (code bug): the claim — and the repository's own later
webhook iterations, whose catch blocks comment "Always return 200 so
Telegram doesn't retry" — say the ingestion endpoint acknowledges every
event with status 200 even when internal processing fails.  The
src/unnamed/part_002 variant violates this: on the same failing photo
event (metadata fetch throws) it answers a hard 500, where
src/api/webhook.js answers 200. -/
theorem c2_part002_responds_500_on_processing_failure :
    (part002Handler photoReq env2MetaFail []).status = 500 ∧
    (part002Handler photoReq env2MetaFail []).status ≠ 200 ∧
    (webhookHandler photoReq envMetaFail []).status = 200 ∧
    (webhookHandler photoReq envMetaFail []).success = some false :=
  ⟨rfl, by decide, rfl, rfl⟩

/-- Claim C6: on a catalog made only of well-formed records typed
`image` or `video`, the stats counters satisfy
`images + videos = totalFiles`. -/
theorem c6_stats_counts_add_up (catalog : List RedisItem)
    (h : ∀ item ∈ catalog, wellTyped item) :
    (statsHandler catalog).images + (statsHandler catalog).videos =
      (statsHandler catalog).totalFiles := by
  have := stats_fold_counts catalog ⟨0, 0, some 0⟩ h
  simpa [statsHandler] using this

/-- Witness for C6 on a concrete two-record catalog. -/
theorem c6_stats_counts_witness :
    (statsHandler [RedisItem.record entryA, RedisItem.record entryB]).images +
      (statsHandler [RedisItem.record entryA, RedisItem.record entryB]).videos =
      (statsHandler [RedisItem.record entryA, RedisItem.record entryB]).totalFiles := by
  apply c6_stats_counts_add_up
  intro item hi
  rcases List.mem_cons.mp hi with rfl | hi
  · exact ⟨entryA, rfl, Or.inl rfl⟩
  · rcases List.mem_cons.mp hi with rfl | hi
    · exact ⟨entryB, rfl, Or.inr rfl⟩
    · cases hi

/-- Claim C1: an ingestion run whose external outcomes fail before the
catalog append — metadata resolution throws, the byte download exhausts
its three attempts, or the blob put throws — creates no catalog record:
the catalog after the run, and hence `listHistory()`, is exactly what it
was before. -/
theorem c1_prefailure_leaves_history_unchanged
    (req : WebhookRequest) (env : WebhookEnv) (catalog : List RedisItem)
    (h : failsBeforeAppend env) :
    (webhookHandler req env catalog).catalog = catalog ∧
    listHistory (webhookHandler req env catalog).catalog = listHistory catalog := by
  suffices hc : (webhookHandler req env catalog).catalog = catalog from
    ⟨hc, by rw [hc]⟩
  unfold webhookHandler
  rcases h with ⟨e, he⟩ | ⟨e, he⟩ | ⟨e, he⟩ <;> simp only [he]
  all_goals repeat' split
  all_goals rfl

/-- Witness for C1: a concrete failing-metadata run over a one-record
catalog leaves it untouched. -/
theorem c1_prefailure_witness :
    (webhookHandler photoReq envMetaFail [RedisItem.record entryA]).catalog =
      [RedisItem.record entryA] ∧
    listHistory (webhookHandler photoReq envMetaFail
        [RedisItem.record entryA]).catalog =
      listHistory [RedisItem.record entryA] :=
  c1_prefailure_leaves_history_unchanged photoReq envMetaFail _
    (Or.inl ⟨"Telegram API failed: 502", rfl⟩)

/-- Claim C3: the byte-download step makes at most 3 fetch attempts;
every failed attempt except the last is followed by a delay, successive
delays are non-decreasing and each is below 5 seconds, and when the
final attempt fails the fetch fails with an error carrying the last
underlying cause — rethrown as-is by the src/api/webhook.js variant,
embedded in the wrapping message by the src/unnamed/part_001 variant.
The metadata-resolution step has no retry loop: a webhook run issues at
most one `getTelegramFile` call. -/
theorem c3_download_retry_policy (outcome : Nat → Except String String)
    (req : WebhookRequest) (env : WebhookEnv) (cat : List RedisItem) :
    (1 ≤ (downloadFileContent outcome 3).attemptsMade ∧
      (downloadFileContent outcome 3).attemptsMade ≤ 3) ∧
    (downloadFileContent outcome 3).delays.length + 1 =
      (downloadFileContent outcome 3).attemptsMade ∧
    (downloadFileContent outcome 3).delays.Chain' (· ≤ ·) ∧
    (∀ d ∈ (downloadFileContent outcome 3).delays, d < 5000) ∧
    (∀ e1 e2 e3, outcome 1 = Except.error e1 → outcome 2 = Except.error e2 →
      outcome 3 = Except.error e3 →
      (downloadFileContent outcome 3).result = Except.error (some e3)) ∧
    (1 ≤ (downloadFileContentExp outcome 3).attemptsMade ∧
      (downloadFileContentExp outcome 3).attemptsMade ≤ 3) ∧
    (downloadFileContentExp outcome 3).delays.length + 1 =
      (downloadFileContentExp outcome 3).attemptsMade ∧
    (downloadFileContentExp outcome 3).delays.Chain' (· ≤ ·) ∧
    (∀ d ∈ (downloadFileContentExp outcome 3).delays, d < 5000) ∧
    (∀ e1 e2 e3, outcome 1 = Except.error e1 → outcome 2 = Except.error e2 →
      outcome 3 = Except.error e3 →
      (downloadFileContentExp outcome 3).result =
        Except.error (some ("Failed to download after 3 attempts: " ++ e3))) ∧
    (webhookHandler req env cat).metadataCalls ≤ 1 := by
  have hmeta : (webhookHandler req env cat).metadataCalls ≤ 1 := by
    unfold webhookHandler
    repeat' split
    all_goals simp
  rw [downloadFileContent_three, downloadFileContentExp_three]
  cases h1 : outcome 1 <;> cases h2 : outcome 2 <;> cases h3 : outcome 3 <;>
    simp [h1, h2, h3, hmeta, List.chain'_cons]

/-- Witness for C3 at an always-failing outcome function: three attempts
are made, the delays are as computed, and the terminal errors carry the
last cause. -/
theorem c3_download_retry_witness :
    (downloadFileContent (fun _ => Except.error "boom") 3).result =
      Except.error (some "boom") ∧
    (downloadFileContentExp (fun _ => Except.error "boom") 3).result =
      Except.error (some ("Failed to download after 3 attempts: " ++ "boom")) ∧
    (webhookHandler photoReq envMetaFail []).metadataCalls ≤ 1 :=
  ⟨(c3_download_retry_policy (fun _ => Except.error "boom")
        photoReq envMetaFail []).2.2.2.2.1 "boom" "boom" "boom" rfl rfl rfl,
   (c3_download_retry_policy (fun _ => Except.error "boom")
        photoReq envMetaFail []).2.2.2.2.2.2.2.2.2.1 "boom" "boom" "boom" rfl rfl rfl,
   (c3_download_retry_policy (fun _ => Except.error "boom")
        photoReq envMetaFail []).2.2.2.2.2.2.2.2.2.2⟩

/-- Counterexample to claim C5 as stated: the Redis-backed history
handler (src/api/history.js) performs no sort, so when a timestamp-10
record is inserted before a timestamp-5 record, listHistory() ends in
reverse insertion order [5, 10] — not sorted by timestamp descending. -/
theorem c5_counterexample_unsorted_insertion_order :
    listHistory (insertAll [entryTs10, entryTs5] []) = [entryTs5, entryTs10] ∧
    timestampsDescB (listHistory (insertAll [entryTs10, entryTs5] [])) = false :=
  ⟨rfl, rfl⟩

/-- Claim C5 amended: listHistory() returns the records in reverse
insertion order (most recently inserted first, which is exactly the
tie-break the claim names); it is sorted by timestamp descending
whenever the insertion sequence carries non-decreasing timestamps — as
the pipeline's `Date.now()` stamps do in sequential operation — but not
for arbitrary insertion orders. -/
theorem c5_history_reverse_insertion_order (entries : List MediaEntry)
    (cat : List RedisItem) :
    listHistory (insertAll entries cat) = entries.reverse ++ listHistory cat ∧
    (timestampsAscB entries = true →
      timestampsDescB (listHistory (insertAll entries [])) = true) := by
  refine ⟨listHistory_insertAll entries cat, fun h => ?_⟩
  rw [listHistory_insertAll]
  rw [show listHistory ([] : List RedisItem) = [] from rfl, List.append_nil]
  exact timestampsDescB_reverse_of_asc entries h

/-- Witness for C5 (amended) on a concrete ascending insertion
sequence. -/
theorem c5_history_order_witness :
    listHistory (insertAll [entryTs5, entryTs10] []) = [entryTs10, entryTs5] ∧
    timestampsDescB (listHistory (insertAll [entryTs5, entryTs10] [])) = true := by
  have h := c5_history_reverse_insertion_order [entryTs5, entryTs10] []
  exact ⟨h.1.trans rfl, h.2 rfl⟩

/-- Counterexample to claim C9 as stated: on a photo payload whose
variants are not listed in ascending size, the handler still picks the
last listed variant (`message.photo[message.photo.length - 1]`), here
"b" of size 100, even though variant "a" of size 500 is larger. -/
theorem c9_counterexample_last_variant_not_largest :
    selectFileId (photoMessage [⟨"a", 500⟩, ⟨"b", 100⟩]) = some "b" ∧
    specSelectLargest [⟨"a", 500⟩, ⟨"b", 100⟩] = some ⟨"a", 500⟩ ∧
    ("b" : String) ≠ "a" :=
  ⟨rfl, rfl, by decide⟩

/-- Claim C9 amended: the pipeline selects the last listed photo
variant; because the transport lists variants in ascending size order,
on such payloads the selection is a largest variant — in particular the
claim's concrete scenario selects "b". -/
theorem c9_selects_last_variant (ps : List PhotoSize) (p : PhotoSize)
    (hlast : ps.getLast? = some p) (hasc : sizesAscB ps = true) :
    selectFileId (photoMessage ps) = some p.file_id ∧
    (∀ q ∈ ps, q.file_size ≤ p.file_size) ∧
    selectFileId (photoMessage [⟨"a", 100⟩, ⟨"b", 500⟩]) = some "b" := by
  refine ⟨?_, ?_, rfl⟩
  · simp [selectFileId, photoMessage, hlast]
  · exact le_getLast_of_sizesAsc ps (sizesAscB_chain' ps hasc) p hlast

/-- Witness for C9 (amended) on the claim's concrete ascending
payload. -/
theorem c9_selects_last_witness :
    selectFileId (photoMessage [⟨"a", 100⟩, ⟨"b", 500⟩]) = some "b" ∧
    ∀ q ∈ [PhotoSize.mk "a" 100, PhotoSize.mk "b" 500], q.file_size ≤ 500 := by
  have h := c9_selects_last_variant [⟨"a", 100⟩, ⟨"b", 500⟩] ⟨"b", 500⟩ rfl rfl
  exact ⟨h.2.2, h.2.1⟩

/-- Counterexample to claim C7 as stated: the stats regex matches only
`KB|MB|GB`, so a record stored with a plain-byte size — exactly what
`formatFileSize` emits for any count up to 1024 bytes — contributes
nothing to the size total instead of being normalized and summed
(512 bytes would be 512/1048576 MB). -/
theorem c7_counterexample_byte_unit_size_dropped :
    entryBytes.size = "512 B" ∧
    formatFileSize 512 = "512 B" ∧
    (statsHandler [RedisItem.record entryBytes]).totalSizeMB = some 0 ∧
    (statsHandler [RedisItem.record entryBytes]).totalSizeMB ≠
      some (512 / 1048576 : ℚ) :=
  ⟨rfl, rfl, rfl, by
    intro hco
    rw [show (statsHandler [RedisItem.record entryBytes]).totalSizeMB =
      some 0 from rfl] at hco
    have h0 : (0 : ℚ) = 512 / 1048576 := Option.some.inj hco
    norm_num at h0⟩

/-- Claim C7 amended: the size aggregation normalizes KB, MB and GB
sizes to megabytes before summing (KB divided by 1024, MB as is, GB
multiplied by 1024); a record whose size field has no KB/MB/GB match —
including plain-byte sizes such as "512 B", not only unparsable ones —
is skipped without failing the call (the record still counts toward
totalFiles and its contribution is dropped). -/
theorem c7_stats_size_normalization (cat : List RedisItem) (e : MediaEntry)
    (numStr : String) (v : ℚ) :
    (sizeMatch e.size = none →
      (statsHandler (cat ++ [RedisItem.record e])).totalSizeMB =
        (statsHandler cat).totalSizeMB ∧
      (statsHandler (cat ++ [RedisItem.record e])).totalFiles =
        (statsHandler cat).totalFiles + 1) ∧
    (sizeMatch e.size = some (numStr, "KB") → parseFloatQ numStr = some v →
      sizeContribMB e.size = SizeContrib.val (v / 1024)) ∧
    (sizeMatch e.size = some (numStr, "MB") → parseFloatQ numStr = some v →
      sizeContribMB e.size = SizeContrib.val v) ∧
    (sizeMatch e.size = some (numStr, "GB") → parseFloatQ numStr = some v →
      sizeContribMB e.size = SizeContrib.val (v * 1024)) := by
  refine ⟨fun h => ⟨?_, ?_⟩, fun hm hp => ?_, fun hm hp => ?_, fun hm hp => ?_⟩
  · simp [statsHandler, List.foldl_append, statsStep, parseItem,
      sizeContribMB, h, addContrib]
  · simp [statsHandler]
  · simp [sizeContribMB, hm, hp]
  · simp [sizeContribMB, hm, hp]
  · simp [sizeContribMB, hm, hp]

/-- Witness for C7 (amended): a byte-unit record contributes nothing,
and a "3 KB" size normalizes to 3/1024 MB. -/
theorem c7_stats_size_witness :
    (statsHandler ([] ++ [RedisItem.record entryBytes])).totalSizeMB =
      (statsHandler []).totalSizeMB ∧
    sizeContribMB entryA.size = SizeContrib.val ((3 : ℚ) / 1024) :=
  ⟨((c7_stats_size_normalization [] entryBytes "0" 0).1 rfl).1,
   (c7_stats_size_normalization [] entryA "3" 3).2.1 rfl (by decide)⟩

/-- Evaluation of the delete handler on its authorized main path over a
non-empty catalog: blob deletion outcome is swallowed, the catalog is
filtered on the url, cleared and re-pushed in order. -/
theorem deleteHandler_main (u : String) (env : DeleteEnv) (fn : Option String)
    (cat : List RedisItem) (hu : u ≠ "") (hne : cat.length ≠ 0) :
    deleteHandler ⟨"POST", some u, fn, some ("Bearer " ++ env.adminPassword)⟩
        env cat =
      (⟨200, some true, some (cat.length - (cat.filter (keepItem u)).length),
          some (cat.filter (keepItem u)).length, none, none⟩,
        cat.filter (keepItem u)) := by
  simp [deleteHandler, hu, hne, lpushMany_eq]

/-- Evaluation of the delete handler on its authorized path over an
empty catalog: the early `Already deleted` acknowledgement, with no
`removed` count in the body. -/
theorem deleteHandler_empty (u : String) (env : DeleteEnv) (fn : Option String)
    (hu : u ≠ "") :
    deleteHandler ⟨"POST", some u, fn, some ("Bearer " ++ env.adminPassword)⟩
        env [] =
      (⟨200, some true, none, none, some "Already deleted", none⟩, []) := by
  simp [deleteHandler, hu]

/-- Counterexample to claim C4 as stated: over the catalog holding
exactly the one record with the target url, the first authorized delete
reports removed=1, but the immediately repeated delete hits the
empty-catalog early return, whose body carries success and an `Already
deleted` message with no `removed` field at all — not removed=0. -/
theorem c4_counterexample_repeat_delete_no_removed_field :
    (deleteHandler (delReq entryA.url) delEnv [RedisItem.record entryA]).1.removed =
      some 1 ∧
    (deleteHandler (delReq entryA.url) delEnv
        ((deleteHandler (delReq entryA.url) delEnv [RedisItem.record entryA]).2)).1.success =
      some true ∧
    (deleteHandler (delReq entryA.url) delEnv
        ((deleteHandler (delReq entryA.url) delEnv [RedisItem.record entryA]).2)).1.removed =
      none ∧
    (deleteHandler (delReq entryA.url) delEnv
        ((deleteHandler (delReq entryA.url) delEnv [RedisItem.record entryA]).2)).1.removed ≠
      some 0 :=
  ⟨rfl, rfl, rfl, by decide⟩

/-- Claim C4 amended: deletion is idempotent in its success reporting —
on a catalog of well-formed records holding exactly one record with the
target url (a non-empty string: an empty url is rejected 400 as missing
by the `if (!url)` falsy check), an authorized delete succeeds with
removed=1, and the immediately repeated authorized delete succeeds
again, reporting removed=0 when records remain, and the `Already
deleted` success body (which carries no removed count) when the catalog
is empty; neither run is an error. -/
theorem c4_delete_idempotent (u : String) (env : DeleteEnv) (fn : Option String)
    (cat cat1 cat2 : List RedisItem) (r1 r2 : DeleteResponse)
    (hu : u ≠ "")
    (hrec : ∀ i ∈ cat, isRecordB i = true)
    (hone : cat.countP (matchesUrlB u) = 1)
    (h1 : deleteHandler ⟨"POST", some u, fn, some ("Bearer " ++ env.adminPassword)⟩
        env cat = (r1, cat1))
    (h2 : deleteHandler ⟨"POST", some u, fn, some ("Bearer " ++ env.adminPassword)⟩
        env cat1 = (r2, cat2)) :
    r1.status = 200 ∧ r1.success = some true ∧ r1.removed = some 1 ∧
    r2.status = 200 ∧ r2.success = some true ∧
    (cat1 ≠ [] → r2.removed = some 0 ∧ cat2 = cat1) ∧
    (cat1 = [] → r2.removed = none ∧ r2.message = some "Already deleted") := by
  have hne : cat.length ≠ 0 := by
    intro h0
    rw [List.length_eq_zero] at h0
    subst h0
    simp at hone
  have hkeep : (cat.filter (keepItem u)).length = cat.length - 1 := by
    have hcount := countP_keep_add_match u cat hrec
    rw [List.countP_eq_length_filter] at hcount
    omega
  have hrem : cat.length - (cat.filter (keepItem u)).length = 1 := by
    have hle : (cat.filter (keepItem u)).length ≤ cat.length :=
      List.length_filter_le _ _
    omega
  rw [deleteHandler_main u env fn cat hu hne, Prod.mk.injEq] at h1
  obtain ⟨hr1, hc1⟩ := h1
  subst hr1
  subst hc1
  refine ⟨rfl, rfl, by simp [hrem], ?_⟩
  by_cases hcat1 : cat.filter (keepItem u) = []
  · rw [hcat1, deleteHandler_empty u env fn hu, Prod.mk.injEq] at h2
    obtain ⟨hr2, _⟩ := h2
    subst hr2
    exact ⟨rfl, rfl, fun hcon => absurd hcat1 hcon, fun _ => ⟨rfl, rfl⟩⟩
  · have hne1 : (cat.filter (keepItem u)).length ≠ 0 := by
      intro h0
      rw [List.length_eq_zero] at h0
      exact hcat1 h0
    rw [deleteHandler_main u env fn _ hu hne1, Prod.mk.injEq] at h2
    obtain ⟨hr2, hc2⟩ := h2
    subst hr2
    have hff : (cat.filter (keepItem u)).filter (keepItem u) =
        cat.filter (keepItem u) :=
      List.filter_eq_self.mpr fun a ha => (List.mem_filter.mp ha).2
    refine ⟨rfl, rfl, fun _ => ⟨by simp [hff], ?_⟩, fun hcon => absurd hcon hcat1⟩
    rw [← hc2, hff]

/-- Witness for C4 (amended) on a two-record catalog: the repeat run
lands on the non-empty branch and reports removed=0. -/
theorem c4_delete_idempotent_witness :
    (deleteHandler (delReq entryA.url) delEnv
        [RedisItem.record entryA, RedisItem.record entryB]).1.removed = some 1 ∧
    (deleteHandler (delReq entryA.url) delEnv
        [RedisItem.record entryB]).1.removed = some 0 := by
  have h := c4_delete_idempotent entryA.url delEnv none
      [RedisItem.record entryA, RedisItem.record entryB]
      [RedisItem.record entryB] [RedisItem.record entryB]
      ⟨200, some true, some 1, some 1, none, none⟩
      ⟨200, some true, some 0, some 1, none, none⟩
      (by decide) (by decide) (by decide) rfl rfl
  exact ⟨h.2.2.1, (h.2.2.2.2.2.1 (by decide)).1⟩

/-- Counterexample to claim C8 as stated: deleting a url absent from a
catalog consisting of one corrupt entry reports removed=1 — the parse
catch drops corrupted entries into the removed count — and rewrites the
catalog to empty, so neither removed=0 nor the frame condition holds. -/
theorem c8_counterexample_corrupt_entry_rewritten :
    (deleteHandler (delReq "https://blob.example/missing") delEnv
        [RedisItem.corrupt "broken"]).1.removed = some 1 ∧
    (deleteHandler (delReq "https://blob.example/missing") delEnv
        [RedisItem.corrupt "broken"]).2 = [] ∧
    (deleteHandler (delReq "https://blob.example/missing") delEnv
        [RedisItem.corrupt "broken"]).1.removed ≠ some 0 ∧
    (deleteHandler (delReq "https://blob.example/missing") delEnv
        [RedisItem.corrupt "broken"]).2 ≠ [RedisItem.corrupt "broken"] :=
  ⟨rfl, rfl, by decide, by decide⟩

/-- Claim C8 amended: for an authorized delete whose url — a non-empty
string, as an empty url is rejected 400 as missing by the `if (!url)`
falsy check — matches no record, over a non-empty catalog all of whose
entries are well-formed records, the response is success with removed=0
(and remaining equal to the catalog size) and the rewritten catalog
holds the same records in the same order.  An empty catalog instead
gets the `Already deleted` success body with no removed count, and
corrupt entries — which the rewrite silently drops and counts as
removed — are excluded by hypothesis. -/
theorem c8_delete_miss_preserves_catalog (u : String) (env : DeleteEnv)
    (fn : Option String) (cat : List RedisItem)
    (hu : u ≠ "")
    (hrec : ∀ i ∈ cat, isRecordB i = true)
    (hnone : cat.countP (matchesUrlB u) = 0)
    (hne : cat ≠ []) :
    (deleteHandler ⟨"POST", some u, fn, some ("Bearer " ++ env.adminPassword)⟩
        env cat).1 = ⟨200, some true, some 0, some cat.length, none, none⟩ ∧
    (deleteHandler ⟨"POST", some u, fn, some ("Bearer " ++ env.adminPassword)⟩
        env cat).2 = cat := by
  have hlen : cat.length ≠ 0 := fun h0 => hne (List.length_eq_zero.mp h0)
  have hfilter : cat.filter (keepItem u) = cat := by
    apply List.filter_eq_self.mpr
    intro a ha
    have hx := hrec a ha
    cases a with
    | corrupt s => simp [isRecordB] at hx
    | record e =>
      have hm := List.countP_eq_zero.mp hnone _ ha
      simp [matchesUrlB] at hm
      simp [keepItem, hm]
  rw [deleteHandler_main u env fn cat hu hlen]
  simp [hfilter]

/-- Witness for C8 (amended) on a concrete two-record catalog. -/
theorem c8_delete_miss_witness :
    (deleteHandler (delReq "https://blob.example/missing") delEnv
        [RedisItem.record entryA, RedisItem.record entryB]).1 =
      ⟨200, some true, some 0, some 2, none, none⟩ ∧
    (deleteHandler (delReq "https://blob.example/missing") delEnv
        [RedisItem.record entryA, RedisItem.record entryB]).2 =
      [RedisItem.record entryA, RedisItem.record entryB] := by
  have h := c8_delete_miss_preserves_catalog "https://blob.example/missing"
      delEnv none [RedisItem.record entryA, RedisItem.record entryB]
      (by decide) (by decide) (by decide) (by decide)
  exact ⟨h.1, h.2⟩
